import Mathlib

/-!
Verification development for the cycling-node map service
(`src/routes/api.js`, clustering utilities and bounded point query service).

The data model and operations below are shallow embeddings of the
JavaScript/TypeScript source.  JavaScript numbers are idealised as exact
rationals (`ℚ`) for stored coordinates and as real numbers (`ℝ`) for the
trigonometric haversine distance; the special values `NaN`/`±Infinity`
that matter for request validation are modelled by the `JsNum` type.
-/

/-- A geographic point record (`CyclingNode` in `src/types/index.ts`).
Coordinates are idealised as exact rationals.  `osmId` is the globally
unique origin identifier (the spec's `externalId`); `name` is free-form
payload. -/
structure CyclingNode where
  id : String
  lat : ℚ
  lng : ℚ
  osmId : Option String
  name : Option String
deriving DecidableEq, Repr

/-- Output marker of the reduction engine (`NodeCluster` in
`src/types/index.ts`): either an individual node (`isCluster = false`,
`type = "node"`) or a merged group (`isCluster = true`, `type = "cluster"`).
Cluster markers leave `osmId`/`name` absent. -/
structure NodeCluster where
  id : String
  lat : ℚ
  lng : ℚ
  osmId : Option String
  name : Option String
  nodes : List CyclingNode
  count : ℕ
  isCluster : Bool
  type : String
deriving DecidableEq, Repr

/-- The zoom→radius table of `getClusterDistance` (`zoomDistances` in the
source): keys 0,3,5,7,9,10 with radii in km. -/
def zoomDistances : ℤ → Option ℚ
  | 0 => some 100
  | 3 => some 75
  | 5 => some 50
  | 7 => some 30
  | 9 => some 15
  | 10 => some 10
  | _ => none

/-- The source's descending lookup loop `for (let z = 10; z >= 0; z--)`:
return the table entry for the first `z ≤ zoom` that has one; after `z = 0`
fall back to 50. -/
def clusterDistanceFrom (zoom : ℤ) : ℕ → ℚ
  | 0 =>
    if 0 ≤ zoom ∧ (zoomDistances 0).isSome then (zoomDistances 0).getD 50 else 50
  | z + 1 =>
    if ((z + 1 : ℕ) : ℤ) ≤ zoom ∧ (zoomDistances (z + 1)).isSome then
      (zoomDistances (z + 1)).getD 50
    else clusterDistanceFrom zoom z

/-- `getClusterDistance(zoom)` from the source: 0 for zoom ≥ 11 (no
grouping), otherwise the table lookup loop starting at z = 10. -/
def getClusterDistance (zoom : ℤ) : ℚ :=
  if 11 ≤ zoom then 0 else clusterDistanceFrom zoom 10

/-- Two-argument arctangent with JavaScript `Math.atan2` semantics
(used by `getDistance`; only the `x > 0` branch is exercised there). -/
noncomputable def atan2 (y x : ℝ) : ℝ :=
  if 0 < x then Real.arctan (y / x)
  else if x < 0 then
    (if 0 ≤ y then Real.arctan (y / x) + Real.pi else Real.arctan (y / x) - Real.pi)
  else if 0 < y then Real.pi / 2
  else if y < 0 then -(Real.pi / 2)
  else 0

/-- Haversine great-circle distance in km on a sphere of radius 6371 km
(`getDistance` in the source), taking coordinates in degrees. -/
noncomputable def getDistance (lat1 lng1 lat2 lng2 : ℚ) : ℝ :=
  let R : ℝ := 6371
  let dLat : ℝ := ((lat2 : ℝ) - (lat1 : ℝ)) * Real.pi / 180
  let dLng : ℝ := ((lng2 : ℝ) - (lng1 : ℝ)) * Real.pi / 180
  let a : ℝ := Real.sin (dLat / 2) * Real.sin (dLat / 2) +
    Real.cos ((lat1 : ℝ) * Real.pi / 180) * Real.cos ((lat2 : ℝ) * Real.pi / 180) *
      Real.sin (dLng / 2) * Real.sin (dLng / 2)
  let c : ℝ := 2 * atan2 (Real.sqrt a) (Real.sqrt (1 - a))
  R * c

/-- State of the inner candidate scan of `clusterNodes`: the group's
members so far, running centroid (`clusterLat`/`clusterLng`), the member
counter, and the candidates left unconsumed (in order). -/
structure ScanResult where
  members : List CyclingNode
  clusterLat : ℚ
  clusterLng : ℚ
  count : ℕ
  remaining : List CyclingNode
deriving Repr

open Classical in
/-- The inner `j` loop of `clusterNodes`: scan the later unconsumed nodes
in order; a candidate within `radius` km of the seed (`center`) is added to
`members` and the centroid is immediately recomputed as the arithmetic mean
of the members; otherwise the candidate stays unconsumed. -/
noncomputable def scanCandidates (radius : ℚ) (center : CyclingNode)
    (members : List CyclingNode) (clusterLat clusterLng : ℚ) (count : ℕ) :
    List CyclingNode → ScanResult
  | [] => ⟨members, clusterLat, clusterLng, count, []⟩
  | node :: rest =>
    if getDistance center.lat center.lng node.lat node.lng ≤ (radius : ℝ) then
      scanCandidates radius center (members ++ [node])
        (((members ++ [node]).map CyclingNode.lat).sum / ((members ++ [node]).length : ℚ))
        (((members ++ [node]).map CyclingNode.lng).sum / ((members ++ [node]).length : ℚ))
        (count + 1) rest
    else
      let r := scanCandidates radius center members clusterLat clusterLng count rest
      ⟨r.members, r.clusterLat, r.clusterLng, r.count, node :: r.remaining⟩

theorem scanCandidates_remaining_length_le (radius : ℚ) (center : CyclingNode) :
    ∀ (cands : List CyclingNode) (members : List CyclingNode) (clusterLat clusterLng : ℚ)
      (count : ℕ),
      (scanCandidates radius center members clusterLat clusterLng count cands).remaining.length ≤
        cands.length := by
  intro cands
  induction cands with
  | nil => intro members la ln k; simp [scanCandidates]
  | cons node rest ih =>
    intro members la ln k
    rw [scanCandidates]
    split
    · exact le_trans (ih _ _ _ _) (by simp)
    · simpa using ih members la ln k

open Classical in
/-- The membership test the code applies to a candidate: its haversine
distance from the group's seed (`centerNode` in the source) is at most the
grouping radius. -/
noncomputable def accepts (radius : ℚ) (center node : CyclingNode) : Bool :=
  decide (getDistance center.lat center.lng node.lat node.lng ≤ (radius : ℝ))

theorem scanCandidates_spec (radius : ℚ) (center : CyclingNode) :
    ∀ (cands members : List CyclingNode) (la ln : ℚ) (count : ℕ),
      count = members.length →
      la = (members.map CyclingNode.lat).sum / (members.length : ℚ) →
      ln = (members.map CyclingNode.lng).sum / (members.length : ℚ) →
      scanCandidates radius center members la ln count cands =
        ⟨members ++ cands.filter (accepts radius center),
          ((members ++ cands.filter (accepts radius center)).map CyclingNode.lat).sum /
            ((members ++ cands.filter (accepts radius center)).length : ℚ),
          ((members ++ cands.filter (accepts radius center)).map CyclingNode.lng).sum /
            ((members ++ cands.filter (accepts radius center)).length : ℚ),
          (members ++ cands.filter (accepts radius center)).length,
          cands.filter (fun n => !(accepts radius center n))⟩ := by
  intro cands
  induction cands with
  | nil =>
    intro members la ln count h1 h2 h3
    subst h1; subst h2; subst h3
    simp [scanCandidates]
  | cons node rest ih =>
    intro members la ln count h1 h2 h3
    rw [scanCandidates]
    split
    · rename_i hd
      have hacc : accepts radius center node = true := by
        simp [accepts, hd]
      rw [ih (members ++ [node]) _ _ (count + 1) (by simp [h1]) rfl rfl]
      simp [List.filter_cons, hacc, List.append_assoc]
    · rename_i hd
      have hacc : accepts radius center node = false := by
        simp [accepts, hd]
      rw [ih members la ln count h1 h2 h3]
      simp [List.filter_cons, hacc]

/-- The outer `i` loop of `clusterNodes` (radius > 0 path): repeatedly take
the next unconsumed node as a seed, scan the later unconsumed nodes, and
emit an individual-node marker when the final membership count is 1 or a
cluster marker (with synthetic id `cluster_<emitted so far>`, the final
centroid and the full membership) otherwise.  `k` is the number of markers
already emitted (`clusters.length` in the source). -/
noncomputable def buildClusters (radius : ℚ) : List CyclingNode → ℕ → List NodeCluster
  | [], _ => []
  | center :: rest, k =>
    let r := scanCandidates radius center [center] center.lat center.lng 1 rest
    if r.count = 1 then
      ⟨center.id, center.lat, center.lng, center.osmId, center.name,
        [center], 1, false, "node"⟩ :: buildClusters radius r.remaining (k + 1)
    else
      ⟨"cluster_" ++ toString k, r.clusterLat, r.clusterLng, none, none,
        r.members, r.count, true, "cluster"⟩ :: buildClusters radius r.remaining (k + 1)
termination_by ns _ => ns.length
decreasing_by
  all_goals
    exact Nat.lt_succ_of_le (by
      simpa using scanCandidates_remaining_length_le radius center rest [center]
        center.lat center.lng 1)

theorem buildClusters_flatten_perm (radius : ℚ) :
    ∀ (L : ℕ) (ns : List CyclingNode) (k : ℕ), ns.length ≤ L →
      List.Perm ((buildClusters radius ns k).map NodeCluster.nodes).flatten ns := by
  intro L
  induction L with
  | zero =>
    intro ns k h
    have hns : ns = [] := List.length_eq_zero.mp (Nat.le_zero.mp h)
    subst hns
    simp [buildClusters]
  | succ L ih =>
    intro ns k h
    match ns with
    | [] => simp [buildClusters]
    | center :: rest =>
      have hrest : rest.length ≤ L := by simpa using h
      have hspec := scanCandidates_spec radius center rest [center] center.lat center.lng 1
        rfl (by simp) (by simp)
      have hremlen : (rest.filter fun n => !(accepts radius center n)).length ≤ L :=
        le_trans (List.length_filter_le _ _) hrest
      have hperm : List.Perm
          (rest.filter (accepts radius center) ++ rest.filter fun n => !(accepts radius center n))
          rest := List.filter_append_perm _ _
      rw [buildClusters, hspec]
      by_cases hone : ([center] ++ rest.filter (accepts radius center)).length = 1
      · have hfil : rest.filter (accepts radius center) = [] := by
          simpa using hone
        rw [if_pos (by simpa using hone)]
        simp only [List.map_cons, List.flatten_cons]
        have htail := ih (rest.filter fun n => !(accepts radius center n)) (k + 1) hremlen
        refine List.Perm.trans (List.Perm.append_left [center] htail) ?_
        have : List.Perm (rest.filter fun n => !(accepts radius center n)) rest := by
          simpa [hfil] using hperm
        simpa using List.Perm.cons center this
      · rw [if_neg (by simpa using hone)]
        simp only [List.map_cons, List.flatten_cons]
        have htail := ih (rest.filter fun n => !(accepts radius center n)) (k + 1) hremlen
        refine List.Perm.trans
          (List.Perm.append_left ([center] ++ rest.filter (accepts radius center)) htail) ?_
        have : List.Perm
            (([center] ++ rest.filter (accepts radius center)) ++
              (rest.filter fun n => !(accepts radius center n)))
            (center :: rest) := by
          simpa using List.Perm.cons center hperm
        simpa using this

/-- `clusterNodes(nodes, zoom)` from the source: with radius 0 every node
becomes its own individual marker; otherwise run the greedy grouping. -/
noncomputable def clusterNodes (nodes : List CyclingNode) (zoom : ℤ) : List NodeCluster :=
  let clusterDistance := getClusterDistance zoom
  if clusterDistance = 0 then
    nodes.map fun node =>
      ⟨node.id, node.lat, node.lng, node.osmId, node.name, [node], 1, false, "node"⟩
  else
    buildClusters clusterDistance nodes 0

theorem clusterNodes_flatten_perm (nodes : List CyclingNode) (zoom : ℤ) :
    List.Perm ((clusterNodes nodes zoom).map NodeCluster.nodes).flatten nodes := by
  simp only [clusterNodes]
  split
  · induction nodes with
    | nil => simp
    | cons a l ihl => simpa using List.Perm.cons a ihl
  · exact buildClusters_flatten_perm _ nodes.length nodes 0 le_rfl

/-- C1: for every finite input list of points and every integer zoom, the
concatenation of the output markers' membership lists is a permutation of
the input list — every input point appears in exactly one output marker,
none dropped and none duplicated. -/
theorem c1_partition_invariant (nodes : List CyclingNode) (zoom : ℤ) :
    List.Perm ((clusterNodes nodes zoom).map NodeCluster.nodes).flatten nodes :=
  clusterNodes_flatten_perm nodes zoom

theorem getClusterDistance_closed (zoom : ℤ) :
    getClusterDistance zoom =
      if 11 ≤ zoom then 0 else if 10 ≤ zoom then 10 else if 9 ≤ zoom then 15
      else if 7 ≤ zoom then 30 else if 5 ≤ zoom then 50 else if 3 ≤ zoom then 75
      else if 0 ≤ zoom then 100 else 50 := by
  unfold getClusterDistance
  by_cases h11 : 11 ≤ zoom
  · simp [h11]
  · rw [if_neg h11, if_neg h11]
    norm_num [clusterDistanceFrom, zoomDistances]

/-- Modelled from the spec: the radius selected from the table
0↦100, 3↦75, 5↦50, 7↦30, 9↦15, 10↦10 by the largest key ≤ zoom
(intended for 0 ≤ zoom < 11). -/
def specLargestKeyRadius (z : ℤ) : ℚ :=
  if 10 ≤ z then 10 else if 9 ≤ z then 15 else if 7 ≤ z then 30
  else if 5 ≤ z then 50 else if 3 ≤ z then 75 else 100

/-- C5: the grouping radius is monotonically non-increasing in zoom for all
integer zoom ≥ 0; for zoom < 11 it equals the table entry of the largest
key ≤ zoom, and for zoom ≥ 11 it is exactly 0. -/
theorem c5_radius_monotone :
    (∀ z1 z2 : ℤ, 0 ≤ z1 → z1 ≤ z2 → getClusterDistance z2 ≤ getClusterDistance z1) ∧
    (∀ z : ℤ, 0 ≤ z → z < 11 → getClusterDistance z = specLargestKeyRadius z) ∧
    (∀ z : ℤ, 11 ≤ z → getClusterDistance z = 0) := by
  have hnn : ∀ z : ℤ, 0 ≤ getClusterDistance z := by
    intro z
    rw [getClusterDistance_closed]
    split_ifs <;> norm_num
  refine ⟨?_, ?_, ?_⟩
  · intro z1 z2 h0 hle
    by_cases h11 : 11 ≤ z2
    · rw [getClusterDistance_closed z2, if_pos h11]
      exact hnn z1
    · have hz2 : z2 ≤ 10 := by omega
      have hz1 : z1 ≤ 10 := by omega
      interval_cases z1 <;> interval_cases z2 <;> decide
  · intro z h0 h11
    interval_cases z <;> decide
  · intro z h11
    rw [getClusterDistance_closed, if_pos h11]

/-- Witness for C5 at concrete zoom levels. -/
theorem c5_radius_monotone_witness :
    getClusterDistance 8 ≤ getClusterDistance 4 ∧
    getClusterDistance 8 = specLargestKeyRadius 8 ∧
    getClusterDistance 12 = 0 :=
  ⟨c5_radius_monotone.1 4 8 (by norm_num) (by norm_num),
   c5_radius_monotone.2.1 8 (by norm_num) (by norm_num),
   c5_radius_monotone.2.2 12 (by norm_num)⟩

theorem buildClusters_marker_spec (radius : ℚ) :
    ∀ (L : ℕ) (ns : List CyclingNode) (k : ℕ), ns.length ≤ L →
      ∀ c ∈ buildClusters radius ns k,
        c.count = c.nodes.length ∧
        (c.isCluster = true ↔ 2 ≤ c.count) ∧
        (c.isCluster = true → c.type = "cluster" ∧
          c.lat = (c.nodes.map CyclingNode.lat).sum / (c.nodes.length : ℚ) ∧
          c.lng = (c.nodes.map CyclingNode.lng).sum / (c.nodes.length : ℚ)) ∧
        (c.isCluster = false → c.type = "node" ∧
          c.nodes.map CyclingNode.id = [c.id] ∧
          c.nodes.map CyclingNode.lat = [c.lat] ∧
          c.nodes.map CyclingNode.lng = [c.lng] ∧
          c.nodes.map CyclingNode.osmId = [c.osmId]) := by
  intro L
  induction L with
  | zero =>
    intro ns k h
    have hns : ns = [] := List.length_eq_zero.mp (Nat.le_zero.mp h)
    subst hns
    simp [buildClusters]
  | succ L ih =>
    intro ns k h
    match ns with
    | [] => simp [buildClusters]
    | center :: rest =>
      have hrest : rest.length ≤ L := by simpa using h
      have hspec := scanCandidates_spec radius center rest [center] center.lat center.lng 1
        rfl (by simp) (by simp)
      have hremlen : (rest.filter fun n => !(accepts radius center n)).length ≤ L :=
        le_trans (List.length_filter_le _ _) hrest
      intro c hc
      rw [buildClusters, hspec] at hc
      by_cases hone : ([center] ++ rest.filter (accepts radius center)).length = 1
      · rw [if_pos (by simpa using hone)] at hc
        rcases List.mem_cons.mp hc with hhead | htail
        · subst hhead
          refine ⟨by simp, by simp, by simp, ?_⟩
          intro _
          simp
        · exact ih _ (k + 1) hremlen c htail
      · rw [if_neg (by simpa using hone)] at hc
        rcases List.mem_cons.mp hc with hhead | htail
        · subst hhead
          have hlen2 : 2 ≤ ([center] ++ rest.filter (accepts radius center)).length := by
            simp only [List.length_append, List.length_cons, List.length_nil] at hone ⊢
            omega
          refine ⟨by simp, by simpa using hlen2, ?_, by simp⟩
          intro _
          exact ⟨rfl, rfl, rfl⟩
        · exact ih _ (k + 1) hremlen c htail

theorem clusterNodes_marker_spec (nodes : List CyclingNode) (zoom : ℤ) :
    ∀ c ∈ clusterNodes nodes zoom,
      c.count = c.nodes.length ∧
      (c.isCluster = true ↔ 2 ≤ c.count) ∧
      (c.isCluster = true → c.type = "cluster" ∧
        c.lat = (c.nodes.map CyclingNode.lat).sum / (c.nodes.length : ℚ) ∧
        c.lng = (c.nodes.map CyclingNode.lng).sum / (c.nodes.length : ℚ)) ∧
      (c.isCluster = false → c.type = "node" ∧
        c.nodes.map CyclingNode.id = [c.id] ∧
        c.nodes.map CyclingNode.lat = [c.lat] ∧
        c.nodes.map CyclingNode.lng = [c.lng] ∧
        c.nodes.map CyclingNode.osmId = [c.osmId]) := by
  intro c hc
  simp only [clusterNodes] at hc
  by_cases h0 : getClusterDistance zoom = 0
  · rw [if_pos h0] at hc
    obtain ⟨node, _, hnode⟩ := List.mem_map.mp hc
    subst hnode
    refine ⟨by simp, by simp, by simp, ?_⟩
    intro _
    simp
  · rw [if_neg h0] at hc
    exact buildClusters_marker_spec _ nodes.length nodes 0 le_rfl c hc

/-- C10: every emitted marker's `count` equals the length of its membership
list; `isCluster` is true exactly when `count ≥ 2` (and then `type` is
"cluster"), and false exactly when `count = 1` (and then `type` is "node"
and the marker carries the single member's id, lat, lng and osmId
unchanged). -/
theorem c10_marker_invariants (nodes : List CyclingNode) (zoom : ℤ) (c : NodeCluster)
    (hc : c ∈ clusterNodes nodes zoom) :
    c.count = c.nodes.length ∧
    (c.isCluster = true ↔ 2 ≤ c.count) ∧
    (c.isCluster = true → c.type = "cluster") ∧
    (c.isCluster = false ↔ c.count = 1) ∧
    (c.isCluster = false → c.type = "node" ∧
      c.nodes.map CyclingNode.id = [c.id] ∧
      c.nodes.map CyclingNode.lat = [c.lat] ∧
      c.nodes.map CyclingNode.lng = [c.lng] ∧
      c.nodes.map CyclingNode.osmId = [c.osmId]) := by
  obtain ⟨h1, h2, h3, h4⟩ := clusterNodes_marker_spec nodes zoom c hc
  refine ⟨h1, h2, fun h => (h3 h).1, ⟨?_, ?_⟩, h4⟩
  · intro hfalse
    have hmap := (h4 hfalse).2.1
    have hlen : c.nodes.length = 1 := by
      simpa using congrArg List.length hmap
    omega
  · intro hcount
    cases hbool : c.isCluster
    · rfl
    · exact absurd (h2.mp hbool) (by omega)

/-- Example point at the equator, longitude 0. -/
def nA : CyclingNode := ⟨"7", 0, 0, some "osm7", some "Knooppunt 7"⟩

/-- Example point at the equator, longitude 0.08° (about 8.9 km east of
`nA`); it shares `nA`'s id, name and osmId but sits elsewhere. -/
def nB : CyclingNode := ⟨"7", 0, 2/25, some "osm7", some "Knooppunt 7"⟩

/-- Example point at the equator, longitude 0.1° (about 11.1 km east of
`nA` and 6.7 km east of the centroid of `nA`,`nB`). -/
def nC : CyclingNode := ⟨"9", 0, 1/10, some "osm9", some "Knooppunt 9"⟩

/-- The individual-node marker produced for `nA` at zoom 11. -/
def singletonMarkerA : NodeCluster :=
  ⟨"7", 0, 0, some "osm7", some "Knooppunt 7", [nA], 1, false, "node"⟩

/-- Witness for C10 on a concrete marker emitted at zoom 11. -/
theorem c10_marker_invariants_witness :
    singletonMarkerA ∈ clusterNodes [nA] 11 ∧
    singletonMarkerA.count = singletonMarkerA.nodes.length ∧
    (singletonMarkerA.isCluster = false ↔ singletonMarkerA.count = 1) ∧
    singletonMarkerA.type = "node" :=
  ⟨by decide,
   (c10_marker_invariants [nA] 11 singletonMarkerA (by decide)).1,
   (c10_marker_invariants [nA] 11 singletonMarkerA (by decide)).2.2.2.1,
   ((c10_marker_invariants [nA] 11 singletonMarkerA (by decide)).2.2.2.2 rfl).1⟩

/-- C3: at zoom ≥ 11 the grouping emits exactly one marker per input point:
the output length equals the input length and the i-th marker is an
individual-node marker carrying the i-th input point's own id, coordinates
and payload, with that point as its sole member. -/
theorem c3_detail_threshold (nodes : List CyclingNode) (zoom : ℤ) (hz : 11 ≤ zoom) :
    (clusterNodes nodes zoom).length = nodes.length ∧
    ∀ i < nodes.length,
      ∃ node, nodes[i]? = some node ∧
        (clusterNodes nodes zoom)[i]? =
          some ⟨node.id, node.lat, node.lng, node.osmId, node.name,
            [node], 1, false, "node"⟩ := by
  have h0 : getClusterDistance zoom = 0 := by
    rw [getClusterDistance, if_pos hz]
  have hcn : clusterNodes nodes zoom = nodes.map (fun node =>
      ⟨node.id, node.lat, node.lng, node.osmId, node.name, [node], 1, false, "node"⟩) := by
    simp [clusterNodes, h0]
  constructor
  · rw [hcn, List.length_map]
  · intro i hi
    refine ⟨nodes[i], by simp [List.getElem?_eq_getElem hi], ?_⟩
    rw [hcn]
    simp [List.getElem?_eq_getElem, hi]

/-- Witness for C3 at zoom 11 on a one-point input. -/
theorem c3_detail_threshold_witness : (clusterNodes [nA] 11).length = 1 :=
  (c3_detail_threshold [nA] 11 (by norm_num)).1

/-- C4: every emitted Group marker (2 or more members) carries as `lat` and
`lng` the arithmetic means of its final members' latitudes and longitudes
(exact rational arithmetic in this idealisation). -/
theorem c4_centroid_mean (nodes : List CyclingNode) (zoom : ℤ) (c : NodeCluster)
    (hc : c ∈ clusterNodes nodes zoom) (h2 : 2 ≤ c.nodes.length) :
    c.lat = (c.nodes.map CyclingNode.lat).sum / (c.nodes.length : ℚ) ∧
    c.lng = (c.nodes.map CyclingNode.lng).sum / (c.nodes.length : ℚ) := by
  obtain ⟨h1, hiff, hclu, _⟩ := clusterNodes_marker_spec nodes zoom c hc
  have htrue : c.isCluster = true := hiff.mpr (by omega)
  exact ⟨(hclu htrue).2.1, (hclu htrue).2.2⟩

theorem getDistance_equator (u v : ℚ) (h0 : u ≤ v) (h1 : ((v : ℝ) - (u : ℝ)) < 180) :
    getDistance 0 u 0 v = 6371 * (((v : ℝ) - (u : ℝ)) * Real.pi / 180) := by
  have hpi := Real.pi_pos
  have hd0 : (0 : ℝ) ≤ (v : ℝ) - (u : ℝ) := by
    have : (u : ℝ) ≤ (v : ℝ) := by exact_mod_cast h0
    linarith
  set θ : ℝ := ((v : ℝ) - (u : ℝ)) * Real.pi / 360 with hθdef
  have hθ0 : 0 ≤ θ := div_nonneg (mul_nonneg hd0 hpi.le) (by norm_num)
  have hmul : ((v : ℝ) - (u : ℝ)) * Real.pi < 180 * Real.pi := by nlinarith
  have hθlt : θ < Real.pi / 2 := by
    rw [hθdef]
    linarith
  have hsin0 : 0 ≤ Real.sin θ :=
    Real.sin_nonneg_of_nonneg_of_le_pi hθ0 (by linarith)
  have hcos : 0 < Real.cos θ := Real.cos_pos_of_mem_Ioo ⟨by linarith, hθlt⟩
  have hhalf : ((v : ℝ) - (u : ℝ)) * Real.pi / 180 / 2 = θ := by
    rw [hθdef]; ring
  simp only [getDistance]
  rw [Rat.cast_zero]
  norm_num
  rw [hhalf]
  have hs : Real.sqrt (Real.sin θ * Real.sin θ) = Real.sin θ := Real.sqrt_mul_self hsin0
  have hc2 : (1 : ℝ) - Real.sin θ * Real.sin θ = Real.cos θ * Real.cos θ := by
    nlinarith [Real.sin_sq_add_cos_sq θ]
  rw [hs, hc2, Real.sqrt_mul_self hcos.le]
  simp only [atan2]
  rw [if_pos hcos]
  rw [← Real.tan_eq_sin_div_cos, Real.arctan_tan (by linarith) hθlt]
  rw [hθdef]
  ring

theorem dist_equator_008_le_10 : getDistance 0 0 0 (2/25) ≤ ((10 : ℚ) : ℝ) := by
  rw [getDistance_equator 0 (2/25) (by norm_num) (by push_cast; norm_num)]
  push_cast
  nlinarith [Real.pi_lt_d2, Real.pi_pos]

theorem dist_equator_010_gt_10 : ¬ getDistance 0 0 0 (1/10) ≤ ((10 : ℚ) : ℝ) := by
  rw [getDistance_equator 0 (1/10) (by norm_num) (by push_cast; norm_num)]
  push_cast
  intro h
  nlinarith [Real.pi_gt_d2]

theorem dist_equator_004_010_le_10 : getDistance 0 (1/25) 0 (1/10) ≤ ((10 : ℚ) : ℝ) := by
  rw [getDistance_equator (1/25) (1/10) (by norm_num) (by push_cast; norm_num)]
  push_cast
  nlinarith [Real.pi_lt_d2, Real.pi_pos]

/-- The cluster marker produced for `nA`,`nB` at zoom 10 (greedy run on
`[nA, nB, nC]`): centroid (0, 0.04), two members. -/
def clusterMarkerAB : NodeCluster :=
  ⟨"cluster_0", 0, 1/25, none, none, [nA, nB], 2, true, "cluster"⟩

/-- The concrete greedy run: at zoom 10 (radius 10 km) on `[nA, nB, nC]`
the code groups `nA` and `nB` (8.9 km apart) and leaves `nC` alone, because
`nC` is 11.1 km from the seed `nA` even though it is only 6.7 km from the
group's centroid. -/
theorem clusterNodes_run_zoom10 :
    clusterNodes [nA, nB, nC] 10 =
      [clusterMarkerAB,
       ⟨"9", 0, 1/10, some "osm9", some "Knooppunt 9", [nC], 1, false, "node"⟩] := by
  have hr : getClusterDistance 10 = 10 := by decide
  have hAB : getDistance nA.lat nA.lng nB.lat nB.lng ≤ ((10 : ℚ) : ℝ) :=
    dist_equator_008_le_10
  have hAC : ¬ getDistance nA.lat nA.lng nC.lat nC.lng ≤ ((10 : ℚ) : ℝ) :=
    dist_equator_010_gt_10
  have hscan1 : scanCandidates 10 nA [nA] nA.lat nA.lng 1 [nB, nC] =
      ⟨[nA, nB], 0, 1/25, 2, [nC]⟩ := by
    rw [scanCandidates, if_pos hAB, scanCandidates, if_neg hAC, scanCandidates]
    simp [nA, nB]
    norm_num
  have hscan2 : scanCandidates 10 nC [nC] nC.lat nC.lng 1 [] =
      ⟨[nC], nC.lat, nC.lng, 1, []⟩ := by
    rw [scanCandidates]
  simp only [clusterNodes, hr]
  rw [if_neg (by norm_num)]
  rw [buildClusters, hscan1]
  simp only []
  rw [if_neg (by norm_num)]
  rw [buildClusters, hscan2]
  simp only [if_pos trivial]
  rw [buildClusters]
  refine List.cons_eq_cons.mpr ⟨by simp only [clusterMarkerAB]; rfl, by simp only [nC]⟩

/-- Witness for C4 on the concrete Group marker produced at zoom 10. -/
theorem c4_centroid_mean_witness :
    clusterMarkerAB ∈ clusterNodes [nA, nB, nC] 10 ∧
    2 ≤ clusterMarkerAB.nodes.length ∧
    clusterMarkerAB.lat =
      (clusterMarkerAB.nodes.map CyclingNode.lat).sum / (clusterMarkerAB.nodes.length : ℚ) ∧
    clusterMarkerAB.lng =
      (clusterMarkerAB.nodes.map CyclingNode.lng).sum / (clusterMarkerAB.nodes.length : ℚ) := by
  have hmem : clusterMarkerAB ∈ clusterNodes [nA, nB, nC] 10 := by
    rw [clusterNodes_run_zoom10]
    exact List.mem_cons_self _ _
  have hlen : 2 ≤ clusterMarkerAB.nodes.length := by
    simp [clusterMarkerAB]
  exact ⟨hmem, hlen, (c4_centroid_mean [nA, nB, nC] 10 clusterMarkerAB hmem hlen).1,
    (c4_centroid_mean [nA, nB, nC] 10 clusterMarkerAB hmem hlen).2⟩

open Classical in
/-- Modelled from the spec (claim C2's description of the scan): identical
to `scanCandidates` except that the membership distance is measured from
the group's current centroid (`clusterLat`/`clusterLng`) instead of the
seed. -/
noncomputable def scanCandidatesCentroid (radius : ℚ)
    (members : List CyclingNode) (clusterLat clusterLng : ℚ) (count : ℕ) :
    List CyclingNode → ScanResult
  | [] => ⟨members, clusterLat, clusterLng, count, []⟩
  | node :: rest =>
    if getDistance clusterLat clusterLng node.lat node.lng ≤ (radius : ℝ) then
      scanCandidatesCentroid radius (members ++ [node])
        (((members ++ [node]).map CyclingNode.lat).sum / ((members ++ [node]).length : ℚ))
        (((members ++ [node]).map CyclingNode.lng).sum / ((members ++ [node]).length : ℚ))
        (count + 1) rest
    else
      let r := scanCandidatesCentroid radius members clusterLat clusterLng count rest
      ⟨r.members, r.clusterLat, r.clusterLng, r.count, node :: r.remaining⟩

theorem scanCandidatesCentroid_remaining_length_le (radius : ℚ) :
    ∀ (cands : List CyclingNode) (members : List CyclingNode) (clusterLat clusterLng : ℚ)
      (count : ℕ),
      (scanCandidatesCentroid radius members clusterLat clusterLng count cands).remaining.length ≤
        cands.length := by
  intro cands
  induction cands with
  | nil => intro members la ln k; simp [scanCandidatesCentroid]
  | cons node rest ih =>
    intro members la ln k
    rw [scanCandidatesCentroid]
    split
    · exact le_trans (ih _ _ _ _) (by simp)
    · simpa using ih members la ln k

/-- Modelled from the spec: the outer grouping loop with the
centroid-based membership test of `scanCandidatesCentroid`; otherwise
identical to `buildClusters`. -/
noncomputable def buildClustersCentroid (radius : ℚ) : List CyclingNode → ℕ → List NodeCluster
  | [], _ => []
  | center :: rest, k =>
    let r := scanCandidatesCentroid radius [center] center.lat center.lng 1 rest
    if r.count = 1 then
      ⟨center.id, center.lat, center.lng, center.osmId, center.name,
        [center], 1, false, "node"⟩ :: buildClustersCentroid radius r.remaining (k + 1)
    else
      ⟨"cluster_" ++ toString k, r.clusterLat, r.clusterLng, none, none,
        r.members, r.count, true, "cluster"⟩ :: buildClustersCentroid radius r.remaining (k + 1)
termination_by ns _ => ns.length
decreasing_by
  all_goals
    exact Nat.lt_succ_of_le (by
      simpa using scanCandidatesCentroid_remaining_length_le radius rest [center]
        center.lat center.lng 1)

/-- Modelled from the spec: grouping in which each membership decision
uses the distance from the group's current centroid, as claim C2 and the
spec describe; the radius-0 path is unchanged. -/
noncomputable def clusterNodesCentroid (nodes : List CyclingNode) (zoom : ℤ) :
    List NodeCluster :=
  let clusterDistance := getClusterDistance zoom
  if clusterDistance = 0 then
    nodes.map fun node =>
      ⟨node.id, node.lat, node.lng, node.osmId, node.name, [node], 1, false, "node"⟩
  else
    buildClustersCentroid clusterDistance nodes 0

/-- The centroid-based grouping described by the spec accepts `nC` as
well: after absorbing `nB` the centroid moves to (0, 0.04) and `nC` is
only 6.7 km from it, so the run on `[nA, nB, nC]` at zoom 10 yields a
single three-member group. -/
theorem clusterNodesCentroid_run_zoom10 :
    clusterNodesCentroid [nA, nB, nC] 10 =
      [⟨"cluster_0", 0, 3/50, none, none, [nA, nB, nC], 3, true, "cluster"⟩] := by
  have hr : getClusterDistance 10 = 10 := by decide
  have hAB : getDistance nA.lat nA.lng nB.lat nB.lng ≤ ((10 : ℚ) : ℝ) :=
    dist_equator_008_le_10
  have hscan : scanCandidatesCentroid 10 [nA] nA.lat nA.lng 1 [nB, nC] =
      ⟨[nA, nB, nC], 0, 3/50, 3, []⟩ := by
    rw [scanCandidatesCentroid, if_pos hAB]
    have harg1 : (([nA] ++ [nB]).map CyclingNode.lat).sum / ((([nA] ++ [nB]).length : ℕ) : ℚ)
        = (0 : ℚ) := by
      norm_num [nA, nB]
    have harg2 : (([nA] ++ [nB]).map CyclingNode.lng).sum / ((([nA] ++ [nB]).length : ℕ) : ℚ)
        = (1/25 : ℚ) := by
      norm_num [nA, nB]
    rw [harg1, harg2]
    rw [scanCandidatesCentroid]
    rw [show nC.lat = 0 from rfl, show nC.lng = (1/10 : ℚ) from rfl]
    rw [if_pos dist_equator_004_010_le_10]
    rw [scanCandidatesCentroid]
    simp [nA, nB, nC]
    norm_num
  simp only [clusterNodesCentroid, hr]
  rw [if_neg (by norm_num)]
  rw [buildClustersCentroid, hscan]
  simp only []
  rw [if_neg (by norm_num)]
  rw [buildClustersCentroid]
  refine List.cons_eq_cons.mpr ⟨by rfl, rfl⟩

/-- Formal statement of claim C2: the grouping as implemented coincides,
for every input and zoom, with the grouping whose membership decisions use
the haversine distance from the group's current centroid (the arithmetic
mean of the members accepted so far) with the centroid recomputed
immediately after each acceptance. -/
def centroidDecidesMembershipClaim : Prop :=
  ∀ (nodes : List CyclingNode) (zoom : ℤ),
    clusterNodes nodes zoom = clusterNodesCentroid nodes zoom

/-- C2 counterexample: on `[nA, nB, nC]` at zoom 10 the code emits two
markers (it rejects `nC`, 11.1 km from the seed) while the centroid-based
grouping the claim describes emits one three-member group (`nC` is 6.7 km
from the moved centroid), so the claim is false. -/
theorem c2_centroid_distance_counterexample : ¬ centroidDecidesMembershipClaim := by
  intro h
  have hrun := h [nA, nB, nC] 10
  rw [clusterNodes_run_zoom10, clusterNodesCentroid_run_zoom10] at hrun
  exact absurd (congrArg List.length hrun) (by norm_num)

/-- C2 (amended): during greedy grouping the distance that decides a
candidate's membership is computed from the group's original seed point
(`centerNode`), so membership is exactly the later candidates within the
radius of the seed; the centroid is recomputed immediately after each
acceptance, so the scan's reported centroid is the arithmetic mean of the
final members and its counter is the membership size. -/
theorem c2_seed_distance_amended (radius : ℚ) (center : CyclingNode)
    (cands : List CyclingNode) :
    (scanCandidates radius center [center] center.lat center.lng 1 cands).members =
      center :: cands.filter (accepts radius center) ∧
    (scanCandidates radius center [center] center.lat center.lng 1 cands).count =
      (scanCandidates radius center [center] center.lat center.lng 1 cands).members.length ∧
    (scanCandidates radius center [center] center.lat center.lng 1 cands).clusterLat =
      ((scanCandidates radius center [center] center.lat center.lng 1 cands).members.map
        CyclingNode.lat).sum /
      ((scanCandidates radius center [center] center.lat center.lng 1 cands).members.length : ℚ) ∧
    (scanCandidates radius center [center] center.lat center.lng 1 cands).clusterLng =
      ((scanCandidates radius center [center] center.lat center.lng 1 cands).members.map
        CyclingNode.lng).sum /
      ((scanCandidates radius center [center] center.lat center.lng 1 cands).members.length : ℚ) := by
  have h := scanCandidates_spec radius center cands [center] center.lat center.lng 1
    rfl (by simp) (by simp)
  rw [h]
  simp

/-- One entry of a group marker's `nodes` array as it appears in the
clustered endpoint's JSON response.  Optional fields model JSON keys that
may be present or absent in the serialized object. -/
structure SerializedMember where
  id : String
  name : Option String
  osmId : Option String
  lat : Option ℚ
  lng : Option ℚ
deriving DecidableEq, Repr

/-- The code's serialization of a group member: the endpoint returns the
clusters unchanged (`res.json` with `nodes: clusterNodes`), so every field
of the member record is present, coordinates included. -/
def serializeFullMember (n : CyclingNode) : SerializedMember :=
  ⟨n.id, n.name, n.osmId, some n.lat, some n.lng⟩

/-- Modelled from the spec: a group member summarized to id, name and
externalId (osmId) only — no coordinate or other payload keys. -/
def serializeSummaryMember (n : CyclingNode) : SerializedMember :=
  ⟨n.id, n.name, n.osmId, none, none⟩

/-- The member entries of a group marker in the clustered endpoint's
response, as the code emits them. -/
def clusterMemberEntries (c : NodeCluster) : List SerializedMember :=
  c.nodes.map serializeFullMember

/-- Formal statement of claim C9: every Group marker in the clustered
response serializes its membership as the id/name/externalId summaries
only. -/
def membershipSummarizedClaim : Prop :=
  ∀ (nodes : List CyclingNode) (zoom : ℤ) (c : NodeCluster),
    c ∈ clusterNodes nodes zoom → c.isCluster = true →
    clusterMemberEntries c = c.nodes.map serializeSummaryMember

/-- C9 counterexample: the group emitted for `[nA, nB, nC]` at zoom 10
serializes its members with their coordinates present (`lat`/`lng` keys),
which the summary serialization lacks. -/
theorem c9_summary_only_counterexample : ¬ membershipSummarizedClaim := by
  intro h
  have hmem : clusterMarkerAB ∈ clusterNodes [nA, nB, nC] 10 := by
    rw [clusterNodes_run_zoom10]
    exact List.mem_cons_self _ _
  have hfalse := h [nA, nB, nC] 10 clusterMarkerAB hmem rfl
  simp [clusterMemberEntries, clusterMarkerAB, serializeFullMember,
    serializeSummaryMember, nA, nB] at hfalse

/-- C9 (amended): a Group marker's membership is serialized as the
members' full records — each entry is the complete payload (coordinates
present) of one of the input points, not an id/name/externalId summary. -/
theorem c9_full_payload_amended (nodes : List CyclingNode) (zoom : ℤ) (c : NodeCluster)
    (hc : c ∈ clusterNodes nodes zoom) :
    ∀ e ∈ clusterMemberEntries c, ∃ m, m ∈ nodes ∧ e = serializeFullMember m ∧
      e.lat = some m.lat ∧ e.lng = some m.lng := by
  intro e he
  obtain ⟨m, hm, hme⟩ := List.mem_map.mp he
  refine ⟨m, ?_, hme.symm, by rw [← hme]; rfl, by rw [← hme]; rfl⟩
  have hflat : m ∈ ((clusterNodes nodes zoom).map NodeCluster.nodes).flatten :=
    List.mem_flatten.mpr ⟨c.nodes, List.mem_map_of_mem NodeCluster.nodes hc, hm⟩
  exact (clusterNodes_flatten_perm nodes zoom).mem_iff.mp hflat

/-- Witness for C9's amended statement on the concrete group at zoom 10. -/
theorem c9_full_payload_amended_witness :
    clusterMarkerAB ∈ clusterNodes [nA, nB, nC] 10 ∧
    serializeFullMember nB ∈ clusterMemberEntries clusterMarkerAB ∧
    (∃ m, m ∈ [nA, nB, nC] ∧ serializeFullMember nB = serializeFullMember m ∧
      (serializeFullMember nB).lat = some m.lat ∧
      (serializeFullMember nB).lng = some m.lng) := by
  have hmem : clusterMarkerAB ∈ clusterNodes [nA, nB, nC] 10 := by
    rw [clusterNodes_run_zoom10]
    exact List.mem_cons_self _ _
  have he : serializeFullMember nB ∈ clusterMemberEntries clusterMarkerAB := by
    simp [clusterMemberEntries, clusterMarkerAB]
  exact ⟨hmem, he, c9_full_payload_amended [nA, nB, nC] 10 clusterMarkerAB hmem
    (serializeFullMember nB) he⟩

/-- A JavaScript number as relevant to request validation: `NaN`,
`±Infinity` (all produced by `parseFloat` on suitable strings) or a finite
value. -/
inductive JsNum where
  | nan
  | posInf
  | negInf
  | num (q : ℚ)
deriving DecidableEq, Repr

/-- JavaScript's `isNaN` on a parsed number. -/
def jsIsNaN : JsNum → Bool
  | .nan => true
  | _ => false

/-- Whether a JavaScript number is finite. -/
def jsIsFinite : JsNum → Bool
  | .num _ => true
  | _ => false

/-- JavaScript subtraction on the `JsNum` model. -/
def jsSub : JsNum → JsNum → JsNum
  | .nan, _ => .nan
  | _, .nan => .nan
  | .posInf, .posInf => .nan
  | .posInf, _ => .posInf
  | .negInf, .negInf => .nan
  | .negInf, _ => .negInf
  | .num _, .posInf => .negInf
  | .num _, .negInf => .posInf
  | .num x, .num y => .num (x - y)

/-- JavaScript multiplication on the `JsNum` model. -/
def jsMul : JsNum → JsNum → JsNum
  | .nan, _ => .nan
  | _, .nan => .nan
  | .posInf, .posInf => .posInf
  | .posInf, .negInf => .negInf
  | .negInf, .posInf => .negInf
  | .negInf, .negInf => .posInf
  | .posInf, .num y => if 0 < y then .posInf else if y < 0 then .negInf else .nan
  | .negInf, .num y => if 0 < y then .negInf else if y < 0 then .posInf else .nan
  | .num x, .posInf => if 0 < x then .posInf else if x < 0 then .negInf else .nan
  | .num x, .negInf => if 0 < x then .negInf else if x < 0 then .posInf else .nan
  | .num x, .num y => .num (x * y)

/-- JavaScript strict greater-than on the `JsNum` model (false whenever a
NaN is involved). -/
def jsGt : JsNum → JsNum → Bool
  | .nan, _ => false
  | _, .nan => false
  | .posInf, .posInf => false
  | .posInf, _ => true
  | .negInf, _ => false
  | .num _, .posInf => false
  | .num _, .negInf => true
  | .num x, .num y => decide (y < x)

/-- `calculateZoomFromBounds` from the source, on JavaScript numbers:
threshold the rectangular area `(north-south)*(east-west)` into a zoom. -/
def calculateZoomFromBounds (south west north east : JsNum) : ℤ :=
  let latDiff := jsSub north south
  let lngDiff := jsSub east west
  let area := jsMul latDiff lngDiff
  if jsGt area (.num 100) then 0
  else if jsGt area (.num 25) then 3
  else if jsGt area (.num 4) then 5
  else if jsGt area (.num 1) then 7
  else if jsGt area (.num (1/4)) then 9
  else if jsGt area (.num (1/10)) then 10
  else 11

/-- The result record of `clusterNodesForBounds`. -/
structure ClusteringResult where
  clusters : List NodeCluster
  zoom : ℤ
  clusterDistance : ℚ
  originalNodeCount : ℕ
  clusterCount : ℕ
  individualNodeCount : ℕ
deriving DecidableEq, Repr

/-- `clusterNodesForBounds` from the source: resolve the zoom (explicit
zoom if given, otherwise inferred from the bounds) and run the grouping. -/
noncomputable def clusterNodesForBounds (nodes : List CyclingNode)
    (south west north east : JsNum) (explicitZoom : Option ℤ) : ClusteringResult :=
  let zoom := match explicitZoom with
    | some z => z
    | none => calculateZoomFromBounds south west north east
  let clusters := clusterNodes nodes zoom
  ⟨clusters, zoom, getClusterDistance zoom, nodes.length,
    (clusters.filter (fun c => c.isCluster)).length,
    (clusters.filter (fun c => !c.isCluster)).length⟩

/-- Response of the clustered endpoint: HTTP 400 with an error body, or
HTTP 200 with the clustering result. -/
inductive ClusteredResponse where
  | badRequest (error : String)
  | ok (result : ClusteringResult)
deriving DecidableEq, Repr

/-- The `/cycling-nodes/clustered/...` route handler from the source:
reject with 400 when any parsed bounds value is NaN, otherwise load the
points (the loader abstracts `loadNodesFromChunks`) and cluster them. -/
noncomputable def clusteredEndpoint
    (loader : JsNum → JsNum → JsNum → JsNum → List CyclingNode)
    (south west north east : JsNum) (zoom : Option ℤ) : ClusteredResponse :=
  if jsIsNaN south || jsIsNaN west || jsIsNaN north || jsIsNaN east then
    .badRequest "Invalid bounds parameters"
  else
    .ok (clusterNodesForBounds (loader south west north east) south west north east zoom)

/-- Formal statement of claim C6: any request in which one of the four
bounds values is not a finite number is rejected with the 400 error
response, whatever the backing loader. -/
def rejectsNonFiniteClaim : Prop :=
  ∀ (loader : JsNum → JsNum → JsNum → JsNum → List CyclingNode)
    (south west north east : JsNum) (zoom : Option ℤ),
    (jsIsFinite south = false ∨ jsIsFinite west = false ∨
      jsIsFinite north = false ∨ jsIsFinite east = false) →
    clusteredEndpoint loader south west north east zoom =
      .badRequest "Invalid bounds parameters"

/-- C6 counterexample: `south = Infinity` is not finite but is not NaN, so
the validation `isNaN(parseFloat(...))` lets it through and the request is
served, not rejected. -/
theorem c6_rejects_nonfinite_counterexample : ¬ rejectsNonFiniteClaim := by
  intro h
  have hrun := h (fun _ _ _ _ => []) .posInf (.num 0) (.num 1) (.num 1) (some 11)
    (Or.inl rfl)
  simp [clusteredEndpoint, jsIsNaN] at hrun

/-- C6 (amended): the clustered endpoint rejects with the 400 error exactly
when one of the four parsed bounds values is NaN, and in that case the
response is computed without consulting the point loader; values parsing to
`±Infinity` pass validation and the request proceeds. -/
theorem c6_nan_only_amended
    (loader loader2 : JsNum → JsNum → JsNum → JsNum → List CyclingNode)
    (south west north east : JsNum) (zoom : Option ℤ) :
    (clusteredEndpoint loader south west north east zoom =
        .badRequest "Invalid bounds parameters" ↔
      (jsIsNaN south || jsIsNaN west || jsIsNaN north || jsIsNaN east) = true) ∧
    ((jsIsNaN south || jsIsNaN west || jsIsNaN north || jsIsNaN east) = true →
      clusteredEndpoint loader south west north east zoom =
        clusteredEndpoint loader2 south west north east zoom) := by
  constructor
  · constructor
    · intro h
      cases hb : (jsIsNaN south || jsIsNaN west || jsIsNaN north || jsIsNaN east) with
      | false =>
        rw [clusteredEndpoint, if_neg (by simp [hb])] at h
        exact absurd h (by simp)
      | true => rfl
    · intro hcond
      rw [clusteredEndpoint, if_pos hcond]
  · intro hcond
    rw [clusteredEndpoint, clusteredEndpoint, if_pos hcond, if_pos hcond]

/-- Witness for C6's amended statement: a NaN south bound is rejected
identically under two different loaders. -/
theorem c6_nan_only_amended_witness :
    (clusteredEndpoint (fun _ _ _ _ => []) .nan (.num 0) (.num 1) (.num 1) none =
        .badRequest "Invalid bounds parameters" ↔
      (jsIsNaN JsNum.nan || jsIsNaN (JsNum.num 0) || jsIsNaN (JsNum.num 1) ||
        jsIsNaN (JsNum.num 1)) = true) ∧
    clusteredEndpoint (fun _ _ _ _ => []) .nan (.num 0) (.num 1) (.num 1) none =
      clusteredEndpoint (fun _ _ _ _ => [nA]) .nan (.num 0) (.num 1) (.num 1) none :=
  ⟨(c6_nan_only_amended (fun _ _ _ _ => []) (fun _ _ _ _ => [nA])
      .nan (.num 0) (.num 1) (.num 1) none).1,
   (c6_nan_only_amended (fun _ _ _ _ => []) (fun _ _ _ _ => [nA])
      .nan (.num 0) (.num 1) (.num 1) none).2 (by decide)⟩

/-- Rectangular bounds of a chunk, `[south, west, north, east]` in the
index file. -/
structure ChunkBounds where
  south : ℚ
  west : ℚ
  north : ℚ
  east : ℚ
deriving DecidableEq, Repr

/-- One entry of the chunk index (`ChunkInfo` in `src/types/index.ts`). -/
structure ChunkInfo where
  id : String
  bounds : ChunkBounds
deriving DecidableEq, Repr

/-- The chunk index (`ChunkIndex` in `src/types/index.ts`). -/
structure ChunkIndex where
  totalChunks : ℕ
  chunks : List ChunkInfo
deriving DecidableEq, Repr

/-- A loaded chunk (`Chunk` in `src/types/index.ts`). -/
structure Chunk where
  id : String
  bounds : ChunkBounds
  nodes : List CyclingNode
deriving DecidableEq, Repr

/-- The backing store as the query service sees it: `index` is the chunk
index (`none` when the index file is missing or unreadable, the caught
failure of `loadChunkIndex`); `chunkData id` is the result of `loadChunk id`
(`none` models the caught read/parse failure that makes `loadChunk` return
null); `fullData` is the full dataset used by the legacy path (`none`
models `loadLocalNodes` throwing). -/
structure ChunkStore where
  index : Option ChunkIndex
  chunkData : String → Option Chunk
  fullData : Option (List CyclingNode)

/-- The inclusive bounds filter applied to nodes (same predicate in
`loadNodesFromChunks` and `filterNodesByBounds`). -/
def nodeInBounds (south west north east : ℚ) (node : CyclingNode) : Bool :=
  decide (node.lat ≥ south) && decide (node.lat ≤ north) &&
    decide (node.lng ≥ west) && decide (node.lng ≤ east)

/-- The rectangle-overlap test of `findIntersectingChunks`: the chunk is
kept unless it lies entirely east, west, north or south of the query box. -/
def chunkIntersects (south west north east : ℚ) (ci : ChunkInfo) : Bool :=
  !(decide (east < ci.bounds.west) || decide (west > ci.bounds.east) ||
    decide (north < ci.bounds.south) || decide (south > ci.bounds.north))

/-- `findIntersectingChunks` from the source. -/
def findIntersectingChunks (idx : ChunkIndex) (south west north east : ℚ) :
    List ChunkInfo :=
  idx.chunks.filter (chunkIntersects south west north east)

/-- `filterNodesByBounds` from the source (legacy full-scan path): load the
whole dataset and filter it by the inclusive bounds predicate; a failed
load propagates as an error. -/
def filterNodesByBounds (store : ChunkStore) (south west north east : ℚ) :
    Except String (List CyclingNode) :=
  match store.fullData with
  | some allNodes => .ok (allNodes.filter (nodeInBounds south west north east))
  | none => .error "Failed to load local data"

/-- The chunk loop of `loadNodesFromChunks`: for each intersecting chunk,
load it; when the load succeeds, append its nodes filtered to the query
bounds; when it fails (null chunk) the chunk is skipped. -/
def chunksLoop (store : ChunkStore) (south west north east : ℚ) :
    List ChunkInfo → List CyclingNode
  | [] => []
  | ci :: rest =>
    match store.chunkData ci.id with
    | some chunk => chunk.nodes.filter (nodeInBounds south west north east) ++
        chunksLoop store south west north east rest
    | none => chunksLoop store south west north east rest

/-- `loadNodesFromChunks` from the source: with no chunk index fall back to
the legacy full scan, otherwise concatenate the in-bounds nodes of the
intersecting chunks that load successfully. -/
def loadNodesFromChunks (store : ChunkStore) (south west north east : ℚ) :
    Except String (List CyclingNode) :=
  match store.index with
  | none => filterNodesByBounds store south west north east
  | some idx => .ok (chunksLoop store south west north east
      (findIntersectingChunks idx south west north east))

/-- Whether a query result is a service-level error. -/
def isErrorResult : Except String (List CyclingNode) → Bool
  | .error _ => true
  | .ok _ => false

/-- Formal statement of claim C7: whenever an intersecting chunk fails to
load, the query surfaces a service-level error rather than succeeding. -/
def chunkFailureSurfacedClaim : Prop :=
  ∀ (store : ChunkStore) (south west north east : ℚ) (idx : ChunkIndex) (ci : ChunkInfo),
    store.index = some idx →
    ci ∈ findIntersectingChunks idx south west north east →
    store.chunkData ci.id = none →
    isErrorResult (loadNodesFromChunks store south west north east) = true

/-- A chunk index entry whose chunk file fails to load. -/
def failingChunkInfo : ChunkInfo := ⟨"c0", ⟨0, 0, 1, 1⟩⟩

/-- A chunk index containing only the failing chunk. -/
def failingChunkIndex : ChunkIndex := ⟨1, [failingChunkInfo]⟩

/-- A store whose only chunk fails to load. -/
def failingChunkStore : ChunkStore := ⟨some failingChunkIndex, fun _ => none, some []⟩

/-- C7 counterexample: with a chunk index present, a chunk that fails to
load is silently skipped — the query succeeds (with that chunk's points
omitted) instead of surfacing an error. -/
theorem c7_chunk_failure_counterexample : ¬ chunkFailureSurfacedClaim := by
  intro h
  have hrun := h failingChunkStore 0 0 1 1 failingChunkIndex failingChunkInfo rfl
    (by decide) rfl
  simp [loadNodesFromChunks, failingChunkStore, failingChunkIndex, failingChunkInfo,
    findIntersectingChunks, chunkIntersects, chunksLoop, isErrorResult] at hrun

/-- C7 (amended): the query errors exactly when there is no chunk index and
the full-dataset load fails (the legacy path surfaces that failure); when a
chunk index is present the query always succeeds, returning only the
in-bounds nodes of the intersecting chunks whose loads succeed — a failing
chunk's points are silently omitted. -/
theorem c7_error_iff_legacy_load_fails_amended (store : ChunkStore)
    (south west north east : ℚ) :
    (loadNodesFromChunks store south west north east = .error "Failed to load local data" ↔
      store.index = none ∧ store.fullData = none) ∧
    (∀ idx, store.index = some idx →
      loadNodesFromChunks store south west north east =
        .ok (chunksLoop store south west north east
          (findIntersectingChunks idx south west north east))) := by
  constructor
  · match hidx : store.index with
    | none =>
      match hfull : store.fullData with
      | none => simp [loadNodesFromChunks, filterNodesByBounds, hidx, hfull]
      | some ds => simp [loadNodesFromChunks, filterNodesByBounds, hidx, hfull]
    | some idx => simp [loadNodesFromChunks, hidx]
  · intro idx hidx
    simp [loadNodesFromChunks, hidx]

/-- Witness for C7's amended statement on the concrete failing store. -/
theorem c7_error_iff_legacy_load_fails_amended_witness :
    (loadNodesFromChunks failingChunkStore 0 0 1 1 = .error "Failed to load local data" ↔
      failingChunkStore.index = none ∧ failingChunkStore.fullData = none) ∧
    loadNodesFromChunks failingChunkStore 0 0 1 1 =
      .ok (chunksLoop failingChunkStore 0 0 1 1
        (findIntersectingChunks failingChunkIndex 0 0 1 1)) :=
  ⟨(c7_error_iff_legacy_load_fails_amended failingChunkStore 0 0 1 1).1,
   (c7_error_iff_legacy_load_fails_amended failingChunkStore 0 0 1 1).2
     failingChunkIndex rfl⟩

/-- The nodes a chunk contributes before bounds filtering: its node list
when the load succeeds, nothing when it fails. -/
def chunkNodesOf (store : ChunkStore) (ci : ChunkInfo) : List CyclingNode :=
  match store.chunkData ci.id with
  | some chunk => chunk.nodes
  | none => []

theorem chunksLoop_eq_flatten (store : ChunkStore) (south west north east : ℚ) :
    ∀ l : List ChunkInfo,
      chunksLoop store south west north east l =
        (l.map (fun ci =>
          (chunkNodesOf store ci).filter (nodeInBounds south west north east))).flatten := by
  intro l
  induction l with
  | nil => simp [chunksLoop]
  | cons ci rest ih =>
    cases hci : store.chunkData ci.id <;>
      simp [chunksLoop, chunkNodesOf, hci, ih]

theorem flatten_map_filter_eq {α β : Type} (p : α → Bool) (g : α → List β) :
    ∀ l : List α, (∀ x ∈ l, p x = false → g x = []) →
      ((l.filter p).map g).flatten = (l.map g).flatten := by
  intro l
  induction l with
  | nil => simp
  | cons a rest ih =>
    intro hnil
    by_cases hp : p a = true
    · rw [List.filter_cons_of_pos hp]
      simp only [List.map_cons, List.flatten_cons]
      rw [ih (fun x hx hfx => hnil x (List.mem_cons_of_mem a hx) hfx)]
    · have hpa : p a = false := by simpa using hp
      rw [List.filter_cons_of_neg (by simp [hpa])]
      simp only [List.map_cons, List.flatten_cons]
      rw [hnil a (List.mem_cons_self a rest) hpa]
      rw [ih (fun x hx hfx => hnil x (List.mem_cons_of_mem a hx) hfx)]
      simp

theorem no_overlap_filter_nil (south west north east : ℚ) (ci : ChunkInfo)
    (hint : chunkIntersects south west north east ci = false)
    (nodes : List CyclingNode)
    (hcont : ∀ nd ∈ nodes, ci.bounds.south ≤ nd.lat ∧ nd.lat ≤ ci.bounds.north ∧
      ci.bounds.west ≤ nd.lng ∧ nd.lng ≤ ci.bounds.east) :
    nodes.filter (nodeInBounds south west north east) = [] := by
  rw [List.filter_eq_nil_iff]
  intro nd hnd hp
  simp only [nodeInBounds, Bool.and_eq_true, decide_eq_true_eq] at hp
  obtain ⟨⟨⟨h1, h2⟩, h3⟩, h4⟩ := hp
  obtain ⟨c1, c2, c3, c4⟩ := hcont nd hnd
  simp only [chunkIntersects, Bool.not_eq_false', Bool.or_eq_true,
    decide_eq_true_eq] at hint
  rcases hint with ((h | h) | h) | h <;> linarith

/-- C8: on a dataset whose chunks partition the points (each point stored
in exactly one chunk, inside that chunk's rectangle), the tiled query path
— intersect chunks by the rectangle-overlap test, then filter each loaded
chunk's points by the inclusive bounds predicate — succeeds and returns
the same points, up to order, as the full-scan fallback filtering the whole
dataset by the same predicate. -/
theorem c8_tile_equivalence (store : ChunkStore) (idx : ChunkIndex)
    (dataset : List CyclingNode) (south west north east : ℚ)
    (hidx : store.index = some idx)
    (hfull : store.fullData = some dataset)
    (_hload : ∀ ci ∈ idx.chunks, store.chunkData ci.id ≠ none)
    (hpart : List.Perm ((idx.chunks.map (chunkNodesOf store)).flatten) dataset)
    (hcont : ∀ ci ∈ idx.chunks, ∀ nd ∈ chunkNodesOf store ci,
      ci.bounds.south ≤ nd.lat ∧ nd.lat ≤ ci.bounds.north ∧
      ci.bounds.west ≤ nd.lng ∧ nd.lng ≤ ci.bounds.east) :
    loadNodesFromChunks store south west north east =
      .ok (chunksLoop store south west north east
        (findIntersectingChunks idx south west north east)) ∧
    filterNodesByBounds store south west north east =
      .ok (dataset.filter (nodeInBounds south west north east)) ∧
    List.Perm
      (chunksLoop store south west north east
        (findIntersectingChunks idx south west north east))
      (dataset.filter (nodeInBounds south west north east)) := by
  refine ⟨by simp [loadNodesFromChunks, hidx], by simp [filterNodesByBounds, hfull], ?_⟩
  rw [chunksLoop_eq_flatten, findIntersectingChunks]
  rw [flatten_map_filter_eq (chunkIntersects south west north east)
    (fun ci => (chunkNodesOf store ci).filter (nodeInBounds south west north east))
    idx.chunks
    (fun ci hci hfalse =>
      no_overlap_filter_nil south west north east ci hfalse _ (hcont ci hci))]
  have hswap :
      (idx.chunks.map (fun ci =>
        (chunkNodesOf store ci).filter (nodeInBounds south west north east))).flatten =
      List.filter (nodeInBounds south west north east)
        ((idx.chunks.map (chunkNodesOf store)).flatten) := by
    rw [List.filter_flatten, List.map_map]
    rfl
  rw [hswap]
  exact hpart.filter _

/-- Witness point inside the first example tile. -/
def tileNodeA : CyclingNode := ⟨"n0", 1, 1, none, none⟩

/-- Witness point inside the second example tile. -/
def tileNodeB : CyclingNode := ⟨"n1", 1, 3, none, none⟩

/-- Example tile index: two side-by-side tiles covering the dataset. -/
def tileIndexEx : ChunkIndex := ⟨2, [⟨"t0", ⟨0, 0, 2, 2⟩⟩, ⟨"t1", ⟨0, 2, 2, 4⟩⟩]⟩

/-- Example store: both tiles load, each holding its own point; the full
dataset holds both points. -/
def tileStoreEx : ChunkStore :=
  ⟨some tileIndexEx,
   fun id =>
     if id = "t0" then some ⟨"t0", ⟨0, 0, 2, 2⟩, [tileNodeA]⟩
     else if id = "t1" then some ⟨"t1", ⟨0, 2, 2, 4⟩, [tileNodeB]⟩
     else none,
   some [tileNodeA, tileNodeB]⟩

/-- Witness for C8 on the concrete two-tile store and the query box
(0,0)–(2,2). -/
theorem c8_tile_equivalence_witness :
    loadNodesFromChunks tileStoreEx 0 0 2 2 =
      .ok (chunksLoop tileStoreEx 0 0 2 2 (findIntersectingChunks tileIndexEx 0 0 2 2)) ∧
    filterNodesByBounds tileStoreEx 0 0 2 2 =
      .ok ([tileNodeA, tileNodeB].filter (nodeInBounds 0 0 2 2)) ∧
    List.Perm (chunksLoop tileStoreEx 0 0 2 2 (findIntersectingChunks tileIndexEx 0 0 2 2))
      ([tileNodeA, tileNodeB].filter (nodeInBounds 0 0 2 2)) :=
  c8_tile_equivalence tileStoreEx tileIndexEx [tileNodeA, tileNodeB] 0 0 2 2
    rfl rfl (by decide) (by decide) (by decide)
